import Mathlib

/-!
Verification of the bids_explorer repository: a shallow embedding of its
path parsing, validation, query-pattern assembly, selection engine and
set-algebra operations, together with theorems settling the specification
claims about them.

Conventions of the embedding:
* Python strings are Lean `String` (a structure over `List Char`); Python
  string methods (`split`, `strip`, `replace`, `startswith`, `isdigit`,
  `lower`, membership) are re-implemented below with Python semantics.
* Python `None` becomes `Option.none`; exceptions become `Except` errors.
* DataFrames become association lists from the inode index to row values.
* Quote characters inside Python error-message literals are elided.
-/

namespace BidsExplorer

deriving instance DecidableEq for Except

/-! ### Python-style string primitives -/

/-- Python `c in s` for a single character. -/
def hasChar (c : Char) (s : List Char) : Bool :=
  s.contains c

/-- Boolean prefix test on character lists (Python `startswith`). -/
def leadsWith : List Char → List Char → Bool
  | [], _ => true
  | _ :: _, [] => false
  | p :: ps, c :: cs => p == c && leadsWith ps cs

/-- Python `s.startswith(p)` on `String`. -/
def pyStartsWith (s p : String) : Bool :=
  leadsWith p.data s.data

/-- Python `str.split(sep)`: splits on every occurrence; `"".split(sep) = [""]`. -/
def splitChar (sep : Char) : List Char → List (List Char)
  | [] => [[]]
  | c :: cs =>
    let r := splitChar sep cs
    if c == sep then [] :: r
    else
      match r with
      | [] => [[c]]
      | h :: t => (c :: h) :: t

/-- Python `str.split(sep, 1)`: split at the first occurrence only. -/
def splitOnce (sep : Char) : List Char → List (List Char)
  | [] => [[]]
  | c :: cs =>
    if c == sep then [[], cs]
    else
      match splitOnce sep cs with
      | [] => [[c]]
      | h :: t => (c :: h) :: t

/-- Python `str.split("-")` lifted to `String`. -/
def pySplitS (sep : Char) (s : String) : List String :=
  (splitChar sep s.data).map (fun l => ⟨l⟩)

/-- Python `str.split("-", 1)` lifted to `String`. -/
def pySplitOnceS (sep : Char) (s : String) : List String :=
  (splitOnce sep s.data).map (fun l => ⟨l⟩)

/-- Drop trailing elements satisfying a predicate. -/
def trimEndWhile (p : Char → Bool) (l : List Char) : List Char :=
  (l.reverse.dropWhile p).reverse

/-- Python `str.strip()` (whitespace on both ends). -/
def pyStrip (s : String) : String :=
  ⟨trimEndWhile Char.isWhitespace (s.data.dropWhile Char.isWhitespace)⟩

/-- Python `str.isdigit()` restricted to ASCII digits. -/
def pyIsdigit (s : String) : Bool :=
  !s.data.isEmpty && s.data.all Char.isDigit

/-- Python `str.lower()` restricted to ASCII. -/
def pyLower (s : String) : String :=
  ⟨s.data.map Char.toLower⟩

/-- Numeric value of a digit string, `int("002") = 2`. -/
def natOfDigits (s : List Char) : Nat :=
  s.foldl (fun n c => n * 10 + (c.toNat - ('0').toNat)) 0

/-- Numeric value of a digit `String`. -/
def pyInt (s : String) : Nat :=
  natOfDigits s.data

/-- Boolean substring test, modelling Python `needle in hay`. -/
def isSubstrB (needle : List Char) : List Char → Bool
  | [] => needle.isEmpty
  | c :: cs => leadsWith needle (c :: cs) || isSubstrB needle cs

/-- Substring occurrence as a (decidable) proposition: `needle` occurs
inside `hay`. -/
abbrev IsSubstr (needle hay : String) : Prop :=
  isSubstrB needle.data hay.data = true

/-- Python `needle in hay` on `String`. -/
def pyContains (hay needle : String) : Bool :=
  isSubstrB needle.data hay.data

/-- Auxiliary for `pyReplace`; the fuel starts at the length of the string,
which suffices because every step consumes at least one character. -/
def pyReplaceAux (pat rep : List Char) : Nat → List Char → List Char
  | _, [] => []
  | 0, s => s
  | fuel + 1, c :: cs =>
    if leadsWith pat (c :: cs) then
      rep ++ pyReplaceAux pat rep fuel (cs.drop (pat.length - 1))
    else
      c :: pyReplaceAux pat rep fuel cs

/-- Python `s.replace(pat, rep)` for a non-empty pattern: one left-to-right
pass replacing non-overlapping occurrences (empty patterns, which Python
treats specially, never occur in this code base). -/
def pyReplace (s pat rep : String) : String :=
  if pat.data.isEmpty then s
  else ⟨pyReplaceAux pat.data rep.data s.data.length s.data⟩

/-- Python `sep.join(parts)`. -/
def joinWith (sep : String) : List String → String
  | [] => ""
  | [x] => x
  | x :: y :: rest => x ++ sep ++ joinWith sep (y :: rest)

/-! ### Set algebra on indexes (architecture/architecture.py, `__add__`,
`__sub__`, `__and__`) -/

/-- An index: a file table and an error table, both keyed by inode
(`unique_id`).  Row payloads are abstract. -/
structure Arch (α : Type) (β : Type) where
  db : List (Nat × α)
  errors : List (Nat × β)

/-- Index (inode) column of the file table. -/
def Arch.keys {α β : Type} (a : Arch α β) : List Nat :=
  a.db.map Prod.fst

/-- Index (inode) column of the error table. -/
def Arch.errKeys {α β : Type} (a : Arch α β) : List Nat :=
  a.errors.map Prod.fst

/-- Insertion step of the ascending sort used to model the sorted order of
a pandas `Index.difference` result. -/
def insertIdx (x : Nat) : List Nat → List Nat
  | [] => [x]
  | y :: ys => if x ≤ y then x :: y :: ys else y :: insertIdx x ys

/-- Ascending sort of an inode list (pandas sorts `Index.difference`
results). -/
def sortIdx : List Nat → List Nat
  | [] => []
  | x :: xs => insertIdx x (sortIdx xs)

/-- Model of `pandas.Index.difference`: elements of `xs` absent from `ys`,
in ascending order. -/
def indexDifference (xs ys : List Nat) : List Nat :=
  sortIdx (xs.filter (fun i => !ys.contains i))

/-- Model of `pandas.Index.intersection` (default `sort=False`): elements
of `xs` also in `ys`, in the order of `xs`. -/
def indexIntersection (xs ys : List Nat) : List Nat :=
  xs.filter (fun i => ys.contains i)

/-- Model of `DataFrame.loc[ids]`: the row stored under each requested
index key, in the requested order. -/
def locRows {α : Type} (db : List (Nat × α)) (ids : List Nat) : List (Nat × α) :=
  ids.filterMap (fun i => (db.lookup i).map (fun r => (i, r)))

/-- Modelled from the spec and the mixin tests: `prepare_for_operations`
lives in architecture/mixins.py, which is absent from src/.  Per the tests
it validates the operand (schema compatibility, a hard error otherwise)
and returns the right operand index; the claims below only concern
compatible indexes, so the embedding returns the index directly. -/
def prepareForOperations {α β : Type} (_self other : Arch α β) : List Nat :=
  other.keys

/-- Source `merge_error_logs` (utils/errors.py): all of the left error
rows, plus right error rows whose index is not already present. -/
def mergeErrorLogs {α β : Type} (a b : Arch α β) : List (Nat × β) :=
  if a.errors.isEmpty && b.errors.isEmpty then a.errors
  else a.errors ++ b.errors.filter (fun p => !(a.errKeys.contains p.1))

/-- Source `__add__` (union): all of A plus B rows whose inode is not in
A, the latter in the sorted order produced by `Index.difference`. -/
def Arch.union {α β : Type} (a b : Arch α β) : Arch α β :=
  let nonDuplicates := indexDifference b.keys a.keys
  { db := a.db ++ locRows b.db nonDuplicates
    errors := mergeErrorLogs a b }

/-- Source `__sub__` (difference): A rows whose inode is not in B, in the
sorted order produced by `Index.difference`. -/
def Arch.diff {α β : Type} (a b : Arch α β) : Arch α β :=
  let remaining := indexDifference a.keys (prepareForOperations a b)
  { db := locRows a.db remaining
    errors := mergeErrorLogs a b }

/-- Source `__and__` (intersection): A rows whose inode is also in B. -/
def Arch.inter {α β : Type} (a b : Arch α β) : Arch α β :=
  let common := indexIntersection a.keys (prepareForOperations a b)
  { db := locRows a.db common
    errors := mergeErrorLogs a b }

/-- Number of inodes shared by the two file tables (counted on A's side). -/
def sharedCount {α β : Type} (a b : Arch α β) : Nat :=
  (indexIntersection a.keys b.keys).length

/-! ### File paths (pathlib model) -/

/-- A filesystem path as its sequence of components (`pathlib.Path.parts`). -/
structure PyPath where
  parts : List String
deriving DecidableEq

/-- Python `path.name`: the final component. -/
def PyPath.name (p : PyPath) : String :=
  p.parts.getLastD ""

/-- Python `path.parent.parts`. -/
def PyPath.parentParts (p : PyPath) : List String :=
  p.parts.dropLast

/-- Python `l[-n:]` slice of a list. -/
def lastN {α : Type} (n : Nat) (l : List α) : List α :=
  l.drop (l.length - n)

/-- Python `str(path)` for the relative paths used here. -/
def pathStr (p : PyPath) : String :=
  joinWith "/" p.parts

/-- Python `pathlib` suffix of a final component: the text from the last
dot on, provided that dot is neither the first nor the last character. -/
def pySuffixChars (name : List Char) : List Char :=
  let after := name.reverse.takeWhile (fun c => c != '.')
  if after.length = name.length then []
  else if after.length = 0 then []
  else if after.length = name.length - 1 then []
  else '.' :: after.reverse

/-- Python `path.suffix` on the final component. -/
def pySuffix (name : String) : String :=
  ⟨pySuffixChars name.data⟩

/-- Python `path.stem` on the final component. -/
def pyStem (name : String) : String :=
  let s := pySuffixChars name.data
  if s.isEmpty then name else ⟨name.data.take (name.data.length - s.length)⟩

/-! ### Validator (core/validation.py, `validate_bids_file`) -/

/-- A raised Python exception, by class and message. -/
inductive PyErr where
  | bidsValidation (msg : String)
  | valueError (msg : String)
  | indexError
deriving DecidableEq

/-- Python `error.__class__.__name__`. -/
def errTypeName : PyErr → String
  | .bidsValidation _ => "BidsValidationError"
  | .valueError _ => "ValueError"
  | .indexError => ""

/-- Python `str(error)`. -/
def errMsgText : PyErr → String
  | .bidsValidation m => m
  | .valueError m => m
  | .indexError => ""

/-- Entity-key whitelist of the validator. -/
def validatorKeys : List String :=
  ["sub", "ses", "task", "acq", "run", "recording", "desc", "space"]

/-- Python `sorted(valid_keys)` as rendered into the invalid-key message
(quote characters elided). -/
def sortedValidatorKeysStr : String :=
  "[acq, desc, recording, run, ses, space, sub, task]"

/-- Test for the regex `^[a-z0-9]+$` under `re.match`. -/
def matchesLowerAlnum (s : String) : Bool :=
  !s.data.isEmpty && s.data.all (fun c => c.isLower || c.isDigit)

/-- Test for the regex `(?P<key>[a-zA-Z0-9]+)-(?P<value>[a-zA-Z0-9]+)`
under `re.match` (anchored at the start only), returning the key group on
success. -/
def keyValueMatchKey (s : String) : Option String :=
  let key := s.data.takeWhile Char.isAlphanum
  match s.data.dropWhile Char.isAlphanum with
  | '-' :: v :: _ => if !key.isEmpty && v.isAlphanum then some ⟨key⟩ else none
  | _ => none

/-- Python `\w` (ASCII fragment). -/
def isWordChar (c : Char) : Bool :=
  c.isAlphanum || c == '_'

/-- Test for the regex `(sub|ses)-[\w\d]+` under `re.match`. -/
def pathComponentMatch (s : String) : Bool :=
  (pyStartsWith s "sub-" || pyStartsWith s "ses-") &&
    (match s.data.drop 4 with
     | c :: _ => isWordChar c
     | [] => false)

/-- Message of the early path-structure raise (quote characters elided;
the three f-string fragments are concatenated without separators exactly
as in the source). -/
def earlyStructureMsg : String :=
  "Path does not contain valid BIDS elements (e.g., sub-*)." ++
    "Should be in the form of" ++ "root/sub-<label>/ses-<label>/<datatype>"

/-- Reason recorded for a malformed datatype directory. -/
def datatypeErrMsg (datatype : String) : String :=
  "Invalid datatype: " ++ datatype ++ " should be a lowercase alphanumeric string."

/-- Reason recorded for a malformed `sub-`/`ses-` path component. -/
def pathComponentErrMsg (part : String) : String :=
  "Invalid path component: " ++ part ++
    " should match the pattern <key>-<value> with key being sub or ses."

/-- Reason recorded for a stem component that is not `key-value`. -/
def partFormatErrMsg (part : String) : String :=
  "Invalid format in " ++ part ++ ": should be <key>-<value>"

/-- Reason recorded for a stem component with an unknown key. -/
def invalidKeyErrMsg (key : String) : String :=
  "Invalid key " ++ key ++ ": must be one of" ++ sortedValidatorKeysStr

/-- Reason recorded for a subject mismatch between path and filename. -/
def subjectMismatchMsg (ps fs : String) : String :=
  "Subject mismatch: path has sub-" ++ ps ++ " but filename has sub-" ++ fs

/-- Reason recorded for a session mismatch between path and filename. -/
def sessionMismatchMsg (ps fs : String) : String :=
  "Session mismatch: path has ses-" ++ ps ++ " but filename has ses-" ++ fs

/-- Validation reasons for the non-final stem components (the enumerate
loop skipping the last component). -/
def filenamePartErrors : List String → List String
  | [] => []
  | p :: ps =>
    (match keyValueMatchKey p with
     | none => [partFormatErrMsg p]
     | some k => if validatorKeys.contains k then [] else [invalidKeyErrMsg k]) ++
      filenamePartErrors ps

/-- Value of the last `key-value` stem component with the given key (the
Python dict keeps the last assignment). -/
def stemEntityLookup (parts : List String) (key : String) : Option String :=
  parts.foldl
    (fun acc p =>
      if hasChar '-' p.data then
        let kv := pySplitOnceS '-' p
        if kv.getD 0 "" = key then some (kv.getD 1 "") else acc
      else acc)
    none

/-- Reason accumulation of `validate_bids_file`: the branch on
`file.suffix`, the early any-of-four structure raise, and then the five
reason-producing checks in source order.  Index errors of the Python list
accesses are modelled as `.indexError`. -/
def collectErrors (file : PyPath) : Except PyErr (List String) :=
  let name := file.name
  let parent := file.parentParts
  let stem := pyStem name
  let nameParts := pySplitS '_' stem
  let hasSuffix := pySuffix name ≠ ""
  let branch : Except PyErr (List String × String) :=
    if hasSuffix then
      let bpp := lastN 3 parent
      match bpp.get? 0, bpp.get? 2 with
      | some p0, some p2 =>
        if !(pyStartsWith p0 "sub" || pyStartsWith p2 "ses" ||
              hasChar '-' p0.data || hasChar '-' p2.data) then
          .error (.bidsValidation earlyStructureMsg)
        else
          match lastN 1 parent with
          | [d] => .ok (bpp, d)
          | _ => .error .indexError
      | _, _ => .error .indexError
    else .ok (lastN 2 parent, name)
  match branch with
  | .error e => .error e
  | .ok (bpp, datatype) =>
    match bpp.get? 0, bpp.get? 1 with
    | some c0, some c1 =>
      let e1 := if datatype ≠ "" && !matchesLowerAlnum datatype then
          [datatypeErrMsg datatype] else []
      let e2 := if !pathComponentMatch c0 then [pathComponentErrMsg c0] else []
      let e3 := if !pathComponentMatch c1 then [pathComponentErrMsg c1] else []
      let e4 := if hasSuffix then filenamePartErrors nameParts.dropLast else []
      let pathSubject : Option String :=
        if hasChar '-' c0.data then some ((pySplitS '-' c0).getD 1 "") else none
      let pathSession : Option String :=
        if hasChar '-' c1.data then some ((pySplitS '-' c1).getD 1 "") else none
      let e5 := match pathSubject, stemEntityLookup nameParts "sub" with
        | some ps, some fs => if ps ≠ "" && ps ≠ fs then [subjectMismatchMsg ps fs] else []
        | _, _ => []
      let e6 := match pathSession, stemEntityLookup nameParts "ses" with
        | some ps, some fs => if ps ≠ "" && ps ≠ fs then [sessionMismatchMsg ps fs] else []
        | _, _ => []
      .ok (e1 ++ e2 ++ e3 ++ e4 ++ e5 ++ e6)
    | _, _ => .error .indexError

/-- Python list comprehension `f"{i + 1}. {error}"` over `enumerate`. -/
def numberFrom (n : Nat) : List String → List String
  | [] => []
  | e :: es => (toString n ++ ". " ++ e) :: numberFrom (n + 1) es

/-- Message of the accumulated-reasons raise. -/
def mkValidationMsg (file : PyPath) (errs : List String) : String :=
  "Non-standardized BIDS name\n" ++ pathStr file ++ "\n\n" ++
    joinWith "\n" (numberFrom 1 errs)

/-- Source `validate_bids_file`: true on zero reasons, a raise otherwise. -/
def validateBidsFile (file : PyPath) : Except PyErr Bool :=
  match collectErrors file with
  | .error e => .error e
  | .ok [] => .ok true
  | .ok errs => .error (.bidsValidation (mkValidationMsg file errs))

/-! ### BidsPath (paths/bids.py) -/

/-- Parsed entity record (the fields of `BidsPath`). -/
structure BidsPathRec where
  subject : Option String := none
  session : Option String := none
  datatype : Option String := none
  task : Option String := none
  run : Option String := none
  acquisition : Option String := none
  description : Option String := none
  suffix : Option String := none
  extension : Option String := none
deriving DecidableEq

/-- Source `_normalize_entity`: strip, then drop a present `prefix-`. -/
def normalizeEntity (pfx : String) (value : String) : String :=
  let v := pyStrip value
  if pyStartsWith v (pfx ++ "-") then ⟨v.data.drop (pfx.data.length + 1)⟩ else v

/-- Per-entity step of `_validate_and_normalize_entities`: reject a value
whose dash-prefix is not the expected one, normalize otherwise. -/
def checkEntity (attr pfx : String) : Option String → Except PyErr (Option String)
  | none => .ok none
  | some v =>
    if hasChar '-' v.data && (pySplitS '-' v).getD 0 "" ≠ pfx then
      .error (.valueError ("Invalid prefix in " ++ attr ++ "=" ++ v ++
        ". Expected " ++ pfx ++ "- prefix if any, got " ++
        (pySplitS '-' v).getD 0 "" ++ "-"))
    else .ok (some (normalizeEntity pfx v))

/-- Extension normalization of the base class.  Modelled from the spec:
paths/base.py is absent from src/; per §4.1 and the base-path tests the
extension is normalized to carry a leading dot when non-empty. -/
def normalizeExtension : Option String → Option String
  | none => none
  | some e => if e ≠ "" && !pyStartsWith e "." then some ("." ++ e) else some e

/-- Construction of a `BidsPath` from raw entities: the dataclass
`__post_init__` validation/normalization chain. -/
def mkBidsPath (r : BidsPathRec) : Except PyErr BidsPathRec := do
  let subject ← checkEntity "subject" "sub" r.subject
  let session ← checkEntity "session" "ses" r.session
  let task ← checkEntity "task" "task" r.task
  let run ← checkEntity "run" "run" r.run
  let acquisition ← checkEntity "acquisition" "acq" r.acquisition
  let description ← checkEntity "description" "desc" r.description
  .ok { r with
    subject := subject, session := session, task := task, run := run,
    acquisition := acquisition, description := description,
    extension := normalizeExtension r.extension }

/-- Stem-entity override step of `from_filename`: each dash-bearing stem
component assigns through the fixed key table. -/
def applyStemPart (r : BidsPathRec) (p : String) : BidsPathRec :=
  if hasChar '-' p.data then
    let kv := pySplitOnceS '-' p
    let key := kv.getD 0 ""
    let v := kv.getD 1 ""
    if key = "sub" then { r with subject := some v }
    else if key = "ses" then { r with session := some v }
    else if key = "task" then { r with task := some v }
    else if key = "acq" then { r with acquisition := some v }
    else if key = "run" then { r with run := some v }
    else if key = "desc" then { r with description := some v }
    else r
  else r

/-- Filename pre-check of the base class.  Modelled from the spec:
paths/base.py (`_check_filename`) is absent from src/; per §4.1 every
non-final underscore-separated stem component lacking a dash is a
validation failure, the final (suffix) component being exempt. -/
def checkFilename (file : PyPath) : Except PyErr Unit :=
  let nameParts := pySplitS '_' (pyStem file.name)
  if nameParts.dropLast.all (fun p => hasChar '-' p.data) then .ok ()
  else .error (.valueError "Malformed filename component")

/-- Source `BidsPath.from_filename`: directory-derived entities
(`parts[-2]` datatype, `parts[-3]` subject, `parts[-4]` session), stem
overrides, suffix and extension, then dataclass construction. -/
def fromFilename (file : PyPath) : Except PyErr BidsPathRec := do
  checkFilename file
  let n := file.parts.length
  let base : BidsPathRec := {}
  let withDirs : Except PyErr BidsPathRec :=
    if n > 2 then
      let dt := (lastN 2 file.parts).getD 0 ""
      let subDir := (lastN 3 file.parts).getD 0 ""
      match (pySplitS '-' subDir).get? 1 with
      | none => .error .indexError
      | some subv =>
        if n > 3 then
          let sesDir := (lastN 4 file.parts).getD 0 ""
          match (pySplitS '-' sesDir).get? 1 with
          | none => .error .indexError
          | some sesv =>
            .ok { base with datatype := some dt, subject := some subv, session := some sesv }
        else .ok { base with datatype := some dt, subject := some subv }
    else .ok base
  let r ← withDirs
  let nameParts := pySplitS '_' (pyStem file.name)
  let r := nameParts.foldl applyStemPart r
  let r := { r with
    suffix := some (nameParts.getLastD "")
    extension := some (pySuffix file.name) }
  mkBidsPath r

/-! ### Query pattern assembly (paths/query.py) -/

/-- Entity fields of a `BidsQuery` (wildcards are unset fields). -/
structure BidsQueryRec where
  subject : Option String := none
  session : Option String := none
  datatype : Option String := none
  space : Option String := none
  task : Option String := none
  acquisition : Option String := none
  run : Option String := none
  recording : Option String := none
  description : Option String := none
  suffix : Option String := none
  extension : Option String := none
deriving DecidableEq

/-- Python `x or "*"` on an optional entity (empty strings are falsy). -/
def orStar : Option String → String
  | none => "*"
  | some s => if s = "" then "*" else s

/-- Python `str(x)` where `x` may be `None`. -/
def pyStrOfOpt : Option String → String
  | none => "None"
  | some s => s

/-- Source `_format_mandatory_attrs`. -/
def formatMandatoryAttrs (q : BidsQueryRec) : String :=
  "sub-" ++ orStar q.subject ++ "_" ++ ("ses-" ++ orStar q.session)

/-- Source `_all_optional_exist`: `space` alone short-circuits, otherwise
all of task/acquisition/run/recording/description must be set. -/
def allOptionalExist (q : BidsQueryRec) : Bool :=
  q.space.isSome ||
    ([q.task, q.acquisition, q.run, q.recording, q.description].all Option.isSome)

/-- Source `_format_optional_attrs`.  The list comprehension tests
`attr is not None` on the attribute NAME (always true), so unset entities
render as `key-None`; only the `space` slot renders as `*`. -/
def formatOptionalAttrs (q : BidsQueryRec) : String :=
  let strs := ["*",
    "task-" ++ pyStrOfOpt q.task,
    "acq-" ++ pyStrOfOpt q.acquisition,
    "run-" ++ pyStrOfOpt q.run,
    "recording-" ++ pyStrOfOpt q.recording,
    "desc-" ++ pyStrOfOpt q.description]
  let s := joinWith "_" strs
  let s := pyReplace s "_*_" "*"
  let s := if !allOptionalExist q then s ++ "*" else s
  pyReplace s "**" "*"

/-- Source `_build_query_filename`.  When neither a suffix string nor an
extension string is available the local `suffix_extension_str` is never
assigned and Python raises `UnboundLocalError`, modelled as `.error`. -/
def buildQueryFilename (q : BidsQueryRec) : Except String String :=
  let mand := formatMandatoryAttrs q
  let opt := formatOptionalAttrs q
  let mand := if !allOptionalExist q then mand ++ "*" else mand
  let suffixStr : Option String :=
    if q.suffix.isNone && allOptionalExist q then some "*" else q.suffix
  let extStr : Option String :=
    if suffixStr.isSome then some "*" else q.extension
  match suffixStr, extStr with
  | some s, some e =>
    let se := pyReplace (s ++ "." ++ e) "*.*" "*"
    let ose := pyReplace (opt ++ "_" ++ se) "*_*" "*"
    let full := pyReplace (mand ++ "_" ++ ose) "*_*" "*"
    .ok full
  | _, _ => .error "UnboundLocalError: suffix_extension_str"

/-! ### Selection engine (architecture/architecture.py, `_create_mask`) -/

/-- A keyword-argument value of `select`/`remove`: `None`, a string, a
list, or any other Python value (for example an integer). -/
inductive CritValue where
  | null
  | str (s : String)
  | list (l : List (Option String))
  | other
deriving DecidableEq

/-- Errors raised by `_create_mask`. -/
inductive SelError where
  | invalidKeys (ks : List String)
  | malformedRange
  | unpackError
deriving DecidableEq

/-- Entity-column whitelist of the selection engine. -/
def selectionKeys : List String :=
  ["subject", "session", "datatype", "task", "run", "acquisition",
   "description", "suffix", "extension"]

/-- A DataFrame row: entity columns to optional string values. -/
abbrev Row := List (String × Option String)

/-- The file table: rows keyed by inode. -/
abbrev DB := List (Nat × Row)

/-- Column access on a row (the claims only use present columns). -/
def colGet (r : Row) (k : String) : Option String :=
  (r.lookup k).getD none

/-- Source `_is_numerical`: `str(x).isdigit()` over the whole column
(`str(None)` is not a digit string). -/
def isNumericalCol (col : List (Option String)) : Bool :=
  col.all (fun v => match v with
    | some s => pyIsdigit s
    | none => false)

/-- Numeric column minimum (`pd.to_numeric(col).min()`); the default for
an empty table is irrelevant because the mask is then empty anyway. -/
def colMinV (l : List Nat) : Nat :=
  l.foldr min (l.headD 0)

/-- Numeric column maximum. -/
def colMaxV (l : List Nat) : Nat :=
  l.foldr max 0

/-- Loop body of `_create_mask` for one keyword argument: skip `None`,
non-strings and blank strings; intersect with the list-membership, range
(numeric columns) and literal-equality masks.  The range branch has no
`else`, so the literal-equality intersection also runs for range
strings. -/
def maskStep (db : DB) (acc : List Nat) (kv : String × CritValue) :
    Except SelError (List Nat) :=
  match kv.2 with
  | .null => .ok acc
  | .other => .ok acc
  | .list l =>
    let matching := (db.filter (fun p => l.contains (colGet p.2 kv.1))).map Prod.fst
    .ok (acc.filter (fun i => matching.contains i))
  | .str s =>
    let v := pyStrip s
    if v = "" then .ok acc
    else
      let col := db.map (fun p => colGet p.2 kv.1)
      let afterRange : Except SelError (List Nat) :=
        if hasChar '-' v.data && isNumericalCol col then
          match pySplitS '-' v with
          | [start, stop] =>
            if (pyIsdigit start || start = "*") && (pyIsdigit stop || stop = "*") then
              let colNum := db.map (fun p => (p.1, pyInt ((colGet p.2 kv.1).getD "")))
              let startVal := if pyIsdigit start then pyInt start
                else colMinV (colNum.map Prod.snd)
              let stopVal := if pyIsdigit stop then pyInt stop
                else colMaxV (colNum.map Prod.snd)
              let matching :=
                (colNum.filter (fun p => startVal ≤ p.2 && p.2 ≤ stopVal)).map Prod.fst
              .ok (acc.filter (fun i => matching.contains i))
            else .error .malformedRange
          | _ => .error .unpackError
        else .ok acc
      match afterRange with
      | .error e => .error e
      | .ok acc1 =>
        let matchingEq := (db.filter (fun p => colGet p.2 kv.1 = some v)).map Prod.fst
        .ok (acc1.filter (fun i => matchingEq.contains i))

/-- Unknown selection keys of a call (`set(kwargs.keys()) - valid_keys`). -/
def invalidKeysOf (kwargs : List (String × CritValue)) : List String :=
  ((kwargs.map Prod.fst).filter (fun k => !selectionKeys.contains k)).eraseDups

/-- Source `_create_mask`: reject unknown keys up front, then fold the
per-criterion intersections and return the membership mask in table
order. -/
def createMask (db : DB) (kwargs : List (String × CritValue)) :
    Except SelError (List Bool) :=
  if invalidKeysOf kwargs ≠ [] then .error (.invalidKeys (invalidKeysOf kwargs))
  else
    match kwargs.foldlM (maskStep db) (db.map Prod.fst) with
    | .error e => .error e
    | .ok valid => .ok (db.map (fun p => valid.contains p.1))

/-- Rows selected by a mask (in table order). -/
def applyMask (db : DB) (mask : List Bool) : DB :=
  (db.zip mask).filterMap (fun pb => if pb.2 then some pb.1 else none)

/-- Source `select`: the rows whose mask entry is true. -/
def selectRows (db : DB) (kwargs : List (String × CritValue)) : Except SelError DB :=
  match createMask db kwargs with
  | .error e => .error e
  | .ok mask => .ok (applyMask db mask)

/-- Source `remove`: the rows whose mask entry is false. -/
def removeRows (db : DB) (kwargs : List (String × CritValue)) : Except SelError DB :=
  match createMask db kwargs with
  | .error e => .error e
  | .ok mask => .ok (applyMask db (mask.map (fun b => !b)))

/-- Run of the in-place `select`: on a raise the receiver is unchanged. -/
def selectInplace (db : DB) (kwargs : List (String × CritValue)) :
    DB × Option SelError :=
  match createMask db kwargs with
  | .error e => (db, some e)
  | .ok mask => (applyMask db mask, none)

/-- Run of the in-place `remove`: on a raise the receiver is unchanged. -/
def removeInplace (db : DB) (kwargs : List (String × CritValue)) :
    DB × Option SelError :=
  match createMask db kwargs with
  | .error e => (db, some e)
  | .ok mask => (applyMask db (mask.map (fun b => !b)), none)

/-! ### Index build pipeline (architecture/architecture.py,
`create_database`) -/

/-- A candidate file produced by the traversal collaborator, together
with its stat-derived inode. -/
structure Candidate where
  path : PyPath
  inode : Nat
deriving DecidableEq

/-- One row of the file table. -/
structure FileRow where
  inode : Nat
  entities : BidsPathRec
  filename : PyPath
deriving DecidableEq

/-- One row of the error table. -/
structure ErrRow where
  inode : Nat
  filename : PyPath
  errorType : String
  errorMessage : String
deriving DecidableEq

/-- Error row recorded by `_add_error_to_log`. -/
def mkErrRow (c : Candidate) (e : PyErr) : ErrRow :=
  { inode := c.inode, filename := c.path,
    errorType := errTypeName e, errorMessage := errMsgText e }

/-- Per-file body of the build loop: validate, then parse; the first
raise is caught and recorded. -/
def processFile (c : Candidate) : Except ErrRow FileRow :=
  match validateBidsFile c.path with
  | .error e => .error (mkErrRow c e)
  | .ok _ =>
    match fromFilename c.path with
    | .error e => .error (mkErrRow c e)
    | .ok r => .ok { inode := c.inode, entities := r, filename := c.path }

/-- The caller-level exclusion of the build loop:
`"test" in file.name.lower()`. -/
def skipAsTest (c : Candidate) : Bool :=
  pyContains (pyLower c.path.name) "test"

/-- Source `create_database` loop: skip test-named files, validate and
parse the rest, and route each outcome to the file or error table,
preserving candidate order. -/
def buildTables : List Candidate → List FileRow × List ErrRow
  | [] => ([], [])
  | c :: cs =>
    let rest := buildTables cs
    if skipAsTest c then rest
    else
      match processFile c with
      | .ok r => (r :: rest.1, rest.2)
      | .error er => (rest.1, er :: rest.2)

/-! ### Lazy-read state (architecture/architecture.py, `database`,
`errors`, `create_database`) -/

/-- Mutable state of a `BidsArchitecture` instance.  The `_database` and
`_errors` tables always exist: modelled from the spec (§4.4) and the
mixin tests, architecture/mixins.py (absent from src/) initializes both
to empty tables, so the `hasattr` conditions of the properties hold. -/
structure ArchState where
  root : Option String
  database : List FileRow
  errors : List ErrRow
deriving DecidableEq

/-- Source `create_database`: a configuration error without a root, a
full rescan otherwise (the filesystem is the `fs` candidate list). -/
def createDatabase (fs : List Candidate) (s : ArchState) : Except String ArchState :=
  match s.root with
  | none => .error "Root directory not set"
  | some _ => .ok { s with database := (buildTables fs).1, errors := (buildTables fs).2 }

/-- Source `database` property: an implicit rebuild when the table is
empty and a root is set, the stored table otherwise. -/
def databaseRead (fs : List Candidate) (s : ArchState) : Except String (List FileRow) :=
  if s.database.isEmpty && s.root.isSome then
    match createDatabase fs s with
    | .error e => .error e
    | .ok s2 => .ok s2.database
  else .ok s.database

/-- Source `errors` property: an implicit rebuild when the error table is
empty and a root is set, the stored table otherwise. -/
def errorsRead (fs : List Candidate) (s : ArchState) : Except String (List ErrRow) :=
  if s.errors.isEmpty && s.root.isSome then
    match createDatabase fs s with
    | .error e => .error e
    | .ok s2 => .ok s2.errors
  else .ok s.errors

/-! ### Claim-side definitions and concrete inputs -/

/-- The directory structure required by the claim (following the spec
wording): last three parent components are `(sub-*, ses-*, <datatype>)`
in that order with a lowercase-alphanumeric datatype. -/
def specOrderedStructure (parts3 : List String) : Bool :=
  match parts3 with
  | [p0, p1, d] => pyStartsWith p0 "sub-" && pyStartsWith p1 "ses-" && matchesLowerAlnum d
  | _ => false

/-- A plain entity label: non-empty and free of the separator characters
(dash, underscore, dot) and whitespace. -/
def cleanLabel (s : String) : Bool :=
  !s.data.isEmpty &&
    s.data.all (fun c => !c.isWhitespace && c != '-' && c != '_' && c != '.')

/-- Five-row single-column numeric table used for the range-selection
claim. -/
def c1db : DB :=
  [(1, [("run", some "1")]), (2, [("run", some "2")]), (3, [("run", some "3")]),
   (4, [("run", some "4")]), (5, [("run", some "5")])]

/-- A path whose parent components are `ses-01/sub-01/eeg`: the swapped
order the claim says must be rejected. -/
def c3path : PyPath :=
  ⟨["ses-01", "sub-01", "eeg", "sub-01_ses-01_task-rest_eeg.vhdr"]⟩

/-- A path violating the gross path structure and, independently, twice
the filename entity grammar. -/
def c4path : PyPath :=
  ⟨["foo", "bar", "baz", "aaa_bbb_eeg.vhdr"]⟩

/-- A well-formed BIDS path whose filename stem carries no entities, so
parsing falls back to the directory components. -/
def c5path : PyPath :=
  ⟨["sub-01", "ses-02", "eeg", "eeg.vhdr"]⟩

/-- Candidate that passes validation but is named like a test artifact. -/
def c7test : Candidate :=
  ⟨⟨["sub-001", "ses-01", "eeg", "sub-001_ses-01_task-testing_eeg.vhdr"]⟩, 11⟩

/-- Candidate that passes validation but fails parsing (the task value
carries a dash, so the dataclass prefix check raises). -/
def c7ab : Candidate :=
  ⟨⟨["sub-001", "ses-01", "eeg", "sub-001_ses-01_task-a-b_eeg.vhdr"]⟩, 12⟩

/-- Candidate that fails validation (session mismatch). -/
def c7bad : Candidate :=
  ⟨⟨["sub-001", "ses-01", "eeg", "sub-001_ses-02_task-rest_eeg.vhdr"]⟩, 13⟩

/-- Two candidates that pass validation and parsing. -/
def c7good1 : Candidate :=
  ⟨⟨["sub-001", "ses-01", "eeg", "sub-001_ses-01_task-rest_eeg.vhdr"]⟩, 14⟩

/-- Second clean candidate for the amended-claim witness. -/
def c7good2 : Candidate :=
  ⟨⟨["sub-002", "ses-01", "eeg", "sub-002_ses-01_task-rest_eeg.vhdr"]⟩, 15⟩

/-- Three-row table used by the invalid-key witness. -/
def c8db : DB :=
  [(1, [("subject", some "001"), ("run", some "1")]),
   (2, [("subject", some "002"), ("run", some "2")]),
   (3, [("subject", some "003"), ("run", some "3")])]

/-- Three-row table used by the skipped-criterion witness. -/
def c10db : DB :=
  [(1, [("subject", some "001"), ("run", some "1")]),
   (2, [("subject", some "002"), ("run", some "2")]),
   (3, [("subject", some "003"), ("run", some "3")])]

/-- Concrete indexes for the set-algebra witness. -/
def c2archA : Arch String Unit :=
  { db := [(1, "a1"), (2, "a2")], errors := [] }

/-- Right operand of the set-algebra witness, sharing inode 2. -/
def c2archB : Arch String Unit :=
  { db := [(2, "b2"), (3, "b3")], errors := [] }

/-- Concrete state for the lazy-read witness: root set, empty tables. -/
def c9state : ArchState :=
  { root := some "data", database := [], errors := [] }

/-- Concrete filesystem for the lazy-read witness. -/
def c9fs : List Candidate :=
  [⟨⟨["sub-001", "ses-01", "eeg", "sub-001_ses-01_task-rest_eeg.vhdr"]⟩, 21⟩]

/-! ## Theorems -/

/-- C1: the claim (and the repository's own test_create_mask) says that on
the numeric-string column values ["1","2","3","4","5"] the call
select(run="2-4") matches exactly the rows "2","3","4".  The code instead
returns no rows at all: the range branch of `_create_mask` has no `else`,
so after intersecting with the range mask the loop also intersects with
the literal-equality mask `col == "2-4"`, which is empty. -/
theorem c1_select_range_returns_empty :
    createMask c1db [("run", CritValue.str "2-4")] =
      Except.ok [false, false, false, false, false] ∧
    selectRows c1db [("run", CritValue.str "2-4")] = Except.ok [] ∧
    isNumericalCol (c1db.map (fun p => colGet p.2 "run")) = true ∧
    selectRows c1db [("run", CritValue.str "2-4")] ≠
      Except.ok [(2, [("run", some "2")]), (3, [("run", some "3")]),
        (4, [("run", some "4")])] :=
  ⟨by decide, by decide, by decide, by decide⟩

/-- C3: the claim says a file whose parent's last three components are not
`(sub-*, ses-*, <datatype>)` in that order must fail validation.  The
path `ses-01/sub-01/eeg/...` has the swapped order, yet
`validate_bids_file` returns True: the structure check tests
`parts[0].startswith("sub")`, `parts[2].startswith("ses")` (the datatype
slot) combined with `any`, and the component grammar accepts `sub-` and
`ses-` in either position. -/
theorem c3_swapped_components_validate :
    validateBidsFile c3path = Except.ok true ∧
    specOrderedStructure (lastN 3 c3path.parentParts) = false :=
  ⟨by decide, by decide⟩

/-- C6: the claim says the assembled filename glob never retains `**`,
`*_*` or `*.*`.  For a query with only a suffix set the code produces a
pattern containing `ses-**` (single-pass replaces, applied before the
final concatenation, miss it), and for a fully-unset query the assembly
does not even complete (`suffix_extension_str` is never assigned). -/
theorem c6_pattern_retains_double_wildcard :
    buildQueryFilename { suffix := some "eeg" } =
      Except.ok "sub-*_ses-**_task-None_acq-None_run-None_recording-None_desc-None*_eeg.*" ∧
    IsSubstr "**"
      "sub-*_ses-**_task-None_acq-None_run-None_recording-None_desc-None*_eeg.*" ∧
    buildQueryFilename {} = Except.error "UnboundLocalError: suffix_extension_str" :=
  ⟨by decide, by decide, by decide⟩

/-- C8: an unknown selection key raises before any filtering work: the
result names exactly the offending keys (even when other criteria are
malformed ranges that would raise later), and the receiving table is
returned unchanged by the in-place variants. -/
theorem c8_invalid_keys_fail_fast (db : DB) (kwargs : List (String × CritValue))
    (h : invalidKeysOf kwargs ≠ []) :
    createMask db kwargs = Except.error (SelError.invalidKeys (invalidKeysOf kwargs)) ∧
    selectInplace db kwargs = (db, some (SelError.invalidKeys (invalidKeysOf kwargs))) ∧
    removeInplace db kwargs = (db, some (SelError.invalidKeys (invalidKeysOf kwargs))) ∧
    selectRows db kwargs = Except.error (SelError.invalidKeys (invalidKeysOf kwargs)) ∧
    removeRows db kwargs = Except.error (SelError.invalidKeys (invalidKeysOf kwargs)) := by
  have hc : createMask db kwargs = Except.error (SelError.invalidKeys (invalidKeysOf kwargs)) := by
    unfold createMask
    rw [if_pos h]
  exact ⟨hc, by simp [selectInplace, hc], by simp [removeInplace, hc],
    by simp [selectRows, hc], by simp [removeRows, hc]⟩

/-- Witness for C8: a call with the bogus key and a malformed range
raises the invalid-key error (not the range error) and leaves the table
unchanged. -/
theorem c8_witness :
    invalidKeysOf [("bogus", CritValue.str "x"), ("run", CritValue.str "a-b")] ≠ [] ∧
    selectInplace c8db [("bogus", CritValue.str "x"), ("run", CritValue.str "a-b")] =
      (c8db, some (SelError.invalidKeys ["bogus"])) := by
  refine ⟨by decide, ?_⟩
  exact (c8_invalid_keys_fail_fast c8db
    [("bogus", CritValue.str "x"), ("run", CritValue.str "a-b")] (by decide)).2.1

/-- C9: reading either table never raises; with a root and an empty table
the read triggers the implicit rebuild; with no root the read returns the
stored table as-is; only an explicit `create_database` without a root
raises the configuration error. -/
theorem c9_lazy_reads_never_raise (fs : List Candidate) (s : ArchState) :
    (databaseRead fs s).isOk = true ∧ (errorsRead fs s).isOk = true ∧
    (s.root.isSome = true → s.database = [] →
      databaseRead fs s = Except.ok (buildTables fs).1) ∧
    (s.root.isSome = true → s.errors = [] →
      errorsRead fs s = Except.ok (buildTables fs).2) ∧
    (s.root = none → databaseRead fs s = Except.ok s.database ∧
      errorsRead fs s = Except.ok s.errors) ∧
    (s.root = none → createDatabase fs s = Except.error "Root directory not set") := by
  obtain ⟨root, db, errs⟩ := s
  cases root <;> cases db <;> cases errs <;>
    simp [databaseRead, errorsRead, createDatabase, Except.isOk, Except.toBool]

/-- Witness for C9: on a rooted state with empty tables the read performs
the implicit build. -/
theorem c9_witness :
    c9state.root.isSome = true ∧ c9state.database = [] ∧
    databaseRead c9fs c9state = Except.ok (buildTables c9fs).1 :=
  ⟨by decide, rfl, (c9_lazy_reads_never_raise c9fs c9state).2.2.1 (by decide) rfl⟩

/-- Characterization of `leadsWith` as a list-prefix relation. -/
theorem leadsWith_iff (p l : List Char) : leadsWith p l = true ↔ ∃ t, l = p ++ t := by
  induction p generalizing l with
  | nil => simp [leadsWith]
  | cons c cs ih =>
    cases l with
    | nil =>
      simp [leadsWith]
    | cons d ds =>
      simp only [leadsWith, Bool.and_eq_true, beq_iff_eq, ih, List.cons_append]
      constructor
      · rintro ⟨rfl, t, rfl⟩
        exact ⟨t, rfl⟩
      · rintro ⟨t, ht⟩
        injection ht with h1 h2
        exact ⟨h1.symm, t, h2⟩

/-- Characterization of the boolean substring test. -/
theorem isSubstrB_iff (n h : List Char) :
    isSubstrB n h = true ↔ ∃ p q, h = p ++ n ++ q := by
  induction h with
  | nil =>
    simp only [isSubstrB, List.isEmpty_iff]
    constructor
    · intro hn
      exact ⟨[], [], by simp [hn]⟩
    · rintro ⟨p, q, hpq⟩
      have := hpq.symm
      simp only [List.append_assoc, List.append_eq_nil] at this
      exact this.2.1
  | cons c cs ih =>
    simp only [isSubstrB, Bool.or_eq_true, ih, leadsWith_iff]
    constructor
    · rintro (⟨t, ht⟩ | ⟨p, q, rfl⟩)
      · exact ⟨[], t, by simp [ht]⟩
      · exact ⟨c :: p, q, rfl⟩
    · rintro ⟨p, q, hpq⟩
      cases p with
      | nil =>
        exact Or.inl ⟨q, by simpa using hpq⟩
      | cons x xs =>
        right
        simp only [List.cons_append, List.append_assoc] at hpq
        injection hpq with h1 h2
        exact ⟨xs, q, by simp [h2]⟩

/-- Substring occurrence from an explicit decomposition. -/
theorem isSubstr_of_decomp (n hay : String) (p q : List Char)
    (hh : hay.data = p ++ n.data ++ q) : IsSubstr n hay :=
  (isSubstrB_iff n.data hay.data).mpr ⟨p, q, hh⟩

/-- A substring of the right part survives prepending. -/
theorem isSubstr_extendLeft {n h : String} (g : String) (hs : IsSubstr n h) :
    IsSubstr n (g ++ h) := by
  obtain ⟨p, q, hpq⟩ := (isSubstrB_iff n.data h.data).mp hs
  exact isSubstr_of_decomp n _ (g.data ++ p) q
    (by simp [String.data_append, hpq, List.append_assoc])

/-- Every reason appears inside the newline-joined numbered rendering. -/
theorem isSubstr_joinWith_numberFrom (l : List String) (r : String) (k : Nat)
    (hr : r ∈ l) : IsSubstr r (joinWith "\n" (numberFrom k l)) := by
  induction l generalizing k with
  | nil => cases hr
  | cons x xs ih =>
    rcases List.mem_cons.mp hr with rfl | hmem
    · cases xs with
      | nil =>
        apply isSubstr_of_decomp _ _ (toString k ++ ". ").data []
        simp [joinWith, numberFrom, String.data_append]
      | cons y ys =>
        apply isSubstr_of_decomp _ _ (toString k ++ ". ").data
          ("\n" ++ joinWith "\n" (numberFrom (k + 1) (y :: ys))).data
        simp [joinWith, numberFrom, String.data_append, List.append_assoc]
    · cases xs with
      | nil => cases hmem
      | cons y ys =>
        have hjoin : joinWith "\n" (numberFrom k (x :: y :: ys)) =
            (toString k ++ ". " ++ x ++ "\n") ++
              joinWith "\n" (numberFrom (k + 1) (y :: ys)) := by
          simp only [numberFrom, joinWith, String.append_assoc]
        rw [hjoin]
        exact isSubstr_extendLeft _ (ih (k + 1) hmem)

/-- The file path appears inside the accumulated-reasons message. -/
theorem isSubstr_path_mkValidationMsg (file : PyPath) (errs : List String) :
    IsSubstr (pathStr file) (mkValidationMsg file errs) := by
  apply isSubstr_of_decomp _ _ ("Non-standardized BIDS name\n").data
    ("\n\n" ++ joinWith "\n" (numberFrom 1 errs)).data
  simp [mkValidationMsg, String.data_append, List.append_assoc]

/-- Every accumulated reason appears inside the message. -/
theorem isSubstr_reason_mkValidationMsg (file : PyPath) (errs : List String)
    (r : String) (hr : r ∈ errs) : IsSubstr r (mkValidationMsg file errs) := by
  have hmsg : mkValidationMsg file errs =
      ("Non-standardized BIDS name\n" ++ pathStr file ++ "\n\n") ++
        joinWith "\n" (numberFrom 1 errs) := by
    unfold mkValidationMsg
    rw [String.append_assoc]
  rw [hmsg]
  exact isSubstr_extendLeft _ (isSubstr_joinWith_numberFrom errs r 1 hr)

/-- C4 (amended): for every candidate file that reaches the
reason-accumulation phase (the gross path-structure precheck passes and
the component accesses succeed, i.e. `collectErrors` returns a list),
validation returns True exactly when zero reasons accumulate, and
otherwise the single raised failure message carries the file path and
every accumulated reason (newline-joined and numbered). -/
theorem c4_accumulated_reasons_all_reported (file : PyPath) (errs : List String)
    (h : collectErrors file = Except.ok errs) :
    (validateBidsFile file = Except.ok true ↔ errs = []) ∧
    (errs ≠ [] →
      validateBidsFile file =
        Except.error (PyErr.bidsValidation (mkValidationMsg file errs)) ∧
      IsSubstr (pathStr file) (mkValidationMsg file errs) ∧
      ∀ r ∈ errs, IsSubstr r (mkValidationMsg file errs)) := by
  constructor
  · constructor
    · intro hv
      cases errs with
      | nil => rfl
      | cons e es =>
        rw [validateBidsFile, h] at hv
        cases hv
    · intro he
      subst he
      rw [validateBidsFile, h]
  · intro hne
    refine ⟨?_, isSubstr_path_mkValidationMsg file errs, ?_⟩
    · cases errs with
      | nil => exact absurd rfl hne
      | cons e es =>
        rw [validateBidsFile, h]
    · intro r hr
      exact isSubstr_reason_mkValidationMsg file errs r hr

/-- Witness for C4 (amended): a file with two independent accumulated
violations (uppercase datatype and an unknown entity key) whose raised
message carries the path and both reasons. -/
theorem c4_witness :
    collectErrors ⟨["sub-01", "ses-01", "EEG", "sub-01_ses-01_bogus-x_eeg.vhdr"]⟩ =
      Except.ok [datatypeErrMsg "EEG", invalidKeyErrMsg "bogus"] ∧
    (validateBidsFile ⟨["sub-01", "ses-01", "EEG", "sub-01_ses-01_bogus-x_eeg.vhdr"]⟩ =
        Except.ok true ↔ [datatypeErrMsg "EEG", invalidKeyErrMsg "bogus"] = ([] : List String)) := by
  refine ⟨by decide, ?_⟩
  exact (c4_accumulated_reasons_all_reported
    ⟨["sub-01", "ses-01", "EEG", "sub-01_ses-01_bogus-x_eeg.vhdr"]⟩
    [datatypeErrMsg "EEG", invalidKeyErrMsg "bogus"] (by decide)).1

/-- Counterexample for C4 as stated: a file violating the gross path
structure and, independently, twice the filename entity grammar raises
immediately with only the structure message: the message carries neither
the file path nor the two filename-grammar reasons. -/
theorem c4_counterexample :
    validateBidsFile c4path = Except.error (PyErr.bidsValidation earlyStructureMsg) ∧
    filenamePartErrors ((pySplitS '_' (pyStem c4path.name)).dropLast) =
      [partFormatErrMsg "aaa", partFormatErrMsg "bbb"] ∧
    ¬ IsSubstr (pathStr c4path) earlyStructureMsg ∧
    ¬ IsSubstr (partFormatErrMsg "aaa") earlyStructureMsg ∧
    ¬ IsSubstr (partFormatErrMsg "bbb") earlyStructureMsg :=
  ⟨by decide, by decide, by decide, by decide, by decide⟩

/-- Bridge between `List.contains` and membership. -/
theorem contains_iff_mem {α : Type} [BEq α] [LawfulBEq α] (l : List α) (a : α) :
    l.contains a = true ↔ a ∈ l :=
  List.elem_iff

/-- Membership in an insertion-sort step. -/
theorem mem_insertIdx (x a : Nat) (l : List Nat) :
    a ∈ insertIdx x l ↔ a = x ∨ a ∈ l := by
  induction l with
  | nil => simp [insertIdx]
  | cons y ys ih =>
    by_cases h : x ≤ y
    · simp [insertIdx, h]
    · simp [insertIdx, h, ih]
      tauto

/-- Length of an insertion-sort step. -/
theorem length_insertIdx (x : Nat) (l : List Nat) :
    (insertIdx x l).length = l.length + 1 := by
  induction l with
  | nil => rfl
  | cons y ys ih => by_cases h : x ≤ y <;> simp [insertIdx, h, ih]

/-- Sorting preserves membership. -/
theorem mem_sortIdx (a : Nat) (l : List Nat) : a ∈ sortIdx l ↔ a ∈ l := by
  induction l with
  | nil => simp [sortIdx]
  | cons y ys ih => simp [sortIdx, mem_insertIdx, ih]

/-- Sorting preserves length. -/
theorem length_sortIdx (l : List Nat) : (sortIdx l).length = l.length := by
  induction l with
  | nil => rfl
  | cons y ys ih => simp [sortIdx, length_insertIdx, ih]

/-- A key of the table has a stored row. -/
theorem lookup_isSome_of_mem_keys {α : Type} (db : List (Nat × α)) (i : Nat)
    (h : i ∈ db.map Prod.fst) : (db.lookup i).isSome = true := by
  induction db with
  | nil => simp at h
  | cons p t ih =>
    obtain ⟨j, r⟩ := p
    simp only [List.map_cons, List.mem_cons] at h
    by_cases hij : i = j
    · simp [List.lookup, hij]
    · have hbeq : (i == j) = false := by simp [hij]
      rcases h with h | h
      · exact absurd h hij
      · simp [List.lookup, hbeq, ih h]

/-- A successful lookup comes from a stored pair. -/
theorem mem_of_lookup_eq_some {α : Type} (db : List (Nat × α)) (k : Nat) (v : α)
    (h : db.lookup k = some v) : (k, v) ∈ db := by
  induction db with
  | nil => simp [List.lookup] at h
  | cons p t ih =>
    obtain ⟨j, r⟩ := p
    by_cases hk : k = j
    · subst hk
      simp [List.lookup] at h
      simp [h]
    · have hbeq : (k == j) = false := by simp [hk]
      simp [List.lookup, hbeq] at h
      exact List.mem_cons_of_mem _ (ih h)

/-- Lookup in a concatenation finds the left row when its key is there. -/
theorem lookup_append_left {α : Type} (l₁ l₂ : List (Nat × α)) (k : Nat)
    (h : k ∈ l₁.map Prod.fst) : (l₁ ++ l₂).lookup k = l₁.lookup k := by
  rw [List.lookup_append]
  obtain ⟨v, hv⟩ := Option.isSome_iff_exists.mp (lookup_isSome_of_mem_keys l₁ k h)
  simp [hv, Option.or]

/-- Length of a `loc` selection whose requested keys are all present. -/
theorem locRows_length {α : Type} (db : List (Nat × α)) (ids : List Nat)
    (h : ∀ i ∈ ids, i ∈ db.map Prod.fst) : (locRows db ids).length = ids.length := by
  induction ids with
  | nil => rfl
  | cons i t ih =>
    obtain ⟨r, hr⟩ := Option.isSome_iff_exists.mp
      (lookup_isSome_of_mem_keys db i (h i (List.mem_cons_self i t)))
    have ht := ih (fun j hj => h j (List.mem_cons_of_mem _ hj))
    unfold locRows at ht ⊢
    rw [List.filterMap_cons]
    simp [hr, ht]

/-- Lookup in a `loc` selection agrees with the source table on requested
keys. -/
theorem lookup_locRows {α : Type} (db : List (Nat × α)) (ids : List Nat) (i : Nat) :
    (locRows db ids).lookup i = if i ∈ ids then db.lookup i else none := by
  induction ids with
  | nil => simp [locRows]
  | cons j t ih =>
    unfold locRows at ih ⊢
    rw [List.filterMap_cons]
    cases hdb : db.lookup j with
    | some r =>
      by_cases hij : i = j
      · subst hij
        simp [List.lookup, hdb]
      · have hbeq : (i == j) = false := by simp [hij]
        simp [List.lookup, hdb, hbeq, ih, hij]
    | none =>
      by_cases hij : i = j
      · subst hij
        simp only [Option.map_none']
        rw [ih]
        simp [hdb]
      · simp only [Option.map_none']
        rw [ih]
        simp [hij]

/-- Filtering by a predicate and its negation partitions the length. -/
theorem length_filter_not_add {α : Type} (p : α → Bool) (l : List α) :
    (l.filter p).length + (l.filter (fun a => !p a)).length = l.length := by
  induction l with
  | nil => rfl
  | cons x t ih => by_cases h : p x <;> simp [List.filter_cons, h, ← ih] <;> omega

/-- For duplicate-free lists the shared-element count is symmetric. -/
theorem length_filter_mem_comm (xs ys : List Nat) (hx : xs.Nodup) (hy : ys.Nodup) :
    (xs.filter (fun i => ys.contains i)).length =
      (ys.filter (fun i => xs.contains i)).length := by
  have key : ∀ (as bs : List Nat), as.Nodup →
      (as.filter (fun i => bs.contains i)).length = (as.toFinset ∩ bs.toFinset).card := by
    intro as bs ha
    rw [← List.toFinset_card_of_nodup (ha.filter _)]
    congr 1
    ext a
    simp [List.mem_toFinset, List.mem_filter, Finset.mem_inter]
  rw [key xs ys hx, key ys xs hy, Finset.inter_comm]

/-- C2: for compatible indexes with duplicate-free inode columns sharing
k rows by unique_id: the union has len(A) + len(B) - k rows, the
intersection k, the difference len(A) - k; union and intersection keep
A's version of every row whose inode A already holds, and the union
appends only B rows whose inode is not in A. -/
theorem c2_set_algebra_key_semantics {α β : Type} (A B : Arch α β)
    (hA : A.keys.Nodup) (hB : B.keys.Nodup) :
    (A.union B).db.length = A.db.length + B.db.length - sharedCount A B ∧
    (A.inter B).db.length = sharedCount A B ∧
    (A.diff B).db.length = A.db.length - sharedCount A B ∧
    (∀ i, i ∈ A.keys → (A.union B).db.lookup i = A.db.lookup i) ∧
    (∀ i, i ∈ A.keys → i ∈ B.keys → (A.inter B).db.lookup i = A.db.lookup i) ∧
    (∃ rest, (A.union B).db = A.db ++ rest ∧
      ∀ p ∈ rest, p.1 ∉ A.keys ∧ p ∈ B.db) := by
  have hklenA : A.keys.length = A.db.length := List.length_map A.db Prod.fst
  have hklenB : B.keys.length = B.db.length := List.length_map B.db Prod.fst
  have hndmem : ∀ i ∈ indexDifference B.keys A.keys, i ∈ B.keys := by
    intro i hi
    exact (List.mem_filter.mp ((mem_sortIdx _ _).mp hi)).1
  have hrest_len : (locRows B.db (indexDifference B.keys A.keys)).length =
      (indexDifference B.keys A.keys).length :=
    locRows_length B.db _ hndmem
  have hsplitB := length_filter_not_add (fun i => A.keys.contains i) B.keys
  have hk_comm : (B.keys.filter (fun i => A.keys.contains i)).length = sharedCount A B := by
    unfold sharedCount indexIntersection
    exact length_filter_mem_comm B.keys A.keys hB hA
  have hkle : sharedCount A B ≤ B.keys.length := by
    rw [← hk_comm]
    exact List.length_filter_le _ _
  have hdiffB_len : (indexDifference B.keys A.keys).length =
      B.keys.length - sharedCount A B := by
    unfold indexDifference
    rw [length_sortIdx]
    omega
  refine ⟨?_, ?_, ?_, ?_, ?_, ?_⟩
  · show (A.db ++ locRows B.db (indexDifference B.keys A.keys)).length = _
    rw [List.length_append, hrest_len, hdiffB_len]
    omega
  · show (locRows A.db (indexIntersection A.keys B.keys)).length = _
    have hmem : ∀ i ∈ indexIntersection A.keys B.keys, i ∈ A.keys := by
      intro i hi
      exact (List.mem_filter.mp hi).1
    rw [locRows_length A.db _ hmem]
    rfl
  · show (locRows A.db (indexDifference A.keys B.keys)).length = _
    have hmem : ∀ i ∈ indexDifference A.keys B.keys, i ∈ A.keys := by
      intro i hi
      exact (List.mem_filter.mp ((mem_sortIdx _ _).mp hi)).1
    rw [locRows_length A.db _ hmem]
    have hsplitA := length_filter_not_add (fun i => B.keys.contains i) A.keys
    have : sharedCount A B = (A.keys.filter (fun i => B.keys.contains i)).length := rfl
    unfold indexDifference
    rw [length_sortIdx]
    omega
  · intro i hi
    exact lookup_append_left A.db _ i hi
  · intro i hiA hiB
    show (locRows A.db (indexIntersection A.keys B.keys)).lookup i = _
    rw [lookup_locRows, if_pos]
    exact List.mem_filter.mpr ⟨hiA, (contains_iff_mem _ _).mpr hiB⟩
  · refine ⟨locRows B.db (indexDifference B.keys A.keys), rfl, ?_⟩
    intro p hp
    obtain ⟨i, hind, hfi⟩ := List.mem_filterMap.mp hp
    obtain ⟨r, hr, hpr⟩ := Option.map_eq_some'.mp hfi
    have hnotA : ¬ A.keys.contains i = true := by
      have := (List.mem_filter.mp ((mem_sortIdx _ _).mp hind)).2
      simp at this
      simp [this]
    constructor
    · rw [← hpr]
      intro hmem
      exact hnotA ((contains_iff_mem _ _).mpr hmem)
    · rw [← hpr]
      exact mem_of_lookup_eq_some B.db i r hr

/-- Witness for C2: two concrete two-row indexes sharing one inode. -/
theorem c2_witness :
    c2archA.keys.Nodup ∧ c2archB.keys.Nodup ∧ sharedCount c2archA c2archB = 1 ∧
    (c2archA.union c2archB).db.length =
      c2archA.db.length + c2archB.db.length - sharedCount c2archA c2archB ∧
    (c2archA.inter c2archB).db.length = sharedCount c2archA c2archB := by
  have h := c2_set_algebra_key_semantics c2archA c2archB (by decide) (by decide)
  exact ⟨by decide, by decide, by decide, h.1, h.2.1⟩

/-- Criterion values that the loop silently skips behave as identity
steps of the mask fold. -/
theorem maskStep_skip (db : DB) (acc : List Nat) (k : String) (v : CritValue)
    (hv : v = CritValue.other ∨ ∃ s, v = CritValue.str s ∧ pyStrip s = "") :
    maskStep db acc (k, v) = Except.ok acc := by
  rcases hv with rfl | ⟨s, rfl, hs⟩
  · rfl
  · simp [maskStep, hs]

/-- Inserting a criterion with a valid key does not change the set of
offending keys. -/
theorem invalidKeysOf_middle (xs ys : List (String × CritValue)) (k : String)
    (v : CritValue) (hk : k ∈ selectionKeys) :
    invalidKeysOf (xs ++ (k, v) :: ys) = invalidKeysOf (xs ++ ys) := by
  unfold invalidKeysOf
  simp [List.map_append, List.filter_append, List.filter_cons, hk]

/-- C10: in `select`/`remove` a criterion whose value is neither None,
a list nor a string (for example an integer), or whose string value is
blank after stripping, is silently skipped: the computed mask, selection
and removal are exactly those of the same call without the criterion. -/
theorem c10_nonstring_or_blank_criteria_ignored (db : DB)
    (xs ys : List (String × CritValue)) (k : String) (v : CritValue)
    (hk : k ∈ selectionKeys)
    (hv : v = CritValue.other ∨ ∃ s, v = CritValue.str s ∧ pyStrip s = "") :
    createMask db (xs ++ (k, v) :: ys) = createMask db (xs ++ ys) ∧
    selectRows db (xs ++ (k, v) :: ys) = selectRows db (xs ++ ys) ∧
    removeRows db (xs ++ (k, v) :: ys) = removeRows db (xs ++ ys) := by
  have hfold : ∀ init : List Nat,
      List.foldlM (maskStep db) init (xs ++ (k, v) :: ys) =
        List.foldlM (maskStep db) init (xs ++ ys) := by
    intro init
    rw [List.foldlM_append, List.foldlM_append]
    apply bind_congr
    intro s
    rw [List.foldlM_cons, maskStep_skip db s k v hv]
    rfl
  have hmask : createMask db (xs ++ (k, v) :: ys) = createMask db (xs ++ ys) := by
    unfold createMask
    rw [invalidKeysOf_middle xs ys k v hk, hfold]
  exact ⟨hmask, by simp [selectRows, hmask], by simp [removeRows, hmask]⟩

/-- Reduction of an `Except` bind on a success value. -/
theorem except_ok_bind {ε α β : Type} (a : α) (f : α → Except ε β) :
    ((Except.ok a : Except ε α) >>= f) = f a :=
  rfl

/-- Two strings with the same character data are equal. -/
theorem strExt {s t : String} (h : s.data = t.data) : s = t := by
  cases s
  cases t
  cases h
  rfl

/-- Unpacking of the clean-label predicate. -/
theorem cleanLabel_spec (s : String) (h : cleanLabel s = true) :
    s.data ≠ [] ∧ ∀ c ∈ s.data,
      c.isWhitespace = false ∧ (c == '-') = false ∧ (c == '_') = false ∧
        (c != '.') = true := by
  unfold cleanLabel at h
  simp only [Bool.and_eq_true, List.all_eq_true, Bool.not_eq_true'] at h
  obtain ⟨h1, h2⟩ := h
  refine ⟨by simpa [List.isEmpty_iff] using h1, ?_⟩
  intro c hc
  have hcp := h2 c hc
  simp only [Bool.and_eq_true] at hcp
  refine ⟨by simpa using hcp.1.1.1, ?_, ?_, hcp.2⟩
  · have := hcp.1.1.2
    simpa [bne] using this
  · have := hcp.1.2
    simpa [bne] using this

/-- A character list all of whose members falsify `p` passes `dropWhile`
unchanged. -/
theorem dropWhile_of_all_false {α : Type} (p : α → Bool) (l : List α)
    (h : ∀ x ∈ l, p x = false) : l.dropWhile p = l := by
  cases l with
  | nil => rfl
  | cons x xs => simp [List.dropWhile_cons, h x (List.mem_cons_self _ _)]

/-- Stripping a whitespace-free string is the identity. -/
theorem pyStrip_clean (v : String) (h : ∀ c ∈ v.data, c.isWhitespace = false) :
    pyStrip v = v := by
  unfold pyStrip trimEndWhile
  rw [dropWhile_of_all_false _ _ h,
    dropWhile_of_all_false _ _ (fun c hc => h c (List.mem_reverse.mp hc))]
  exact strExt (by simp)

/-- A character of the pattern occurs in any string it prefixes. -/
theorem leadsWith_chars_mem {p l : List Char} (h : leadsWith p l = true) :
    ∀ c ∈ p, c ∈ l := by
  obtain ⟨t, rfl⟩ := (leadsWith_iff p l).mp h
  intro c hc
  exact List.mem_append_left _ hc

/-- A pattern containing a character absent from the string is not a
prefix of it. -/
theorem leadsWith_eq_false {p l : List Char} (c : Char) (hc : c ∈ p)
    (hl : c ∉ l) : leadsWith p l = false := by
  cases hlw : leadsWith p l
  · rfl
  · exact absurd (leadsWith_chars_mem hlw c hc) hl

/-- Membership gives a positive single-character containment test. -/
theorem hasChar_of_mem (c : Char) (l : List Char) (h : c ∈ l) :
    hasChar c l = true :=
  (contains_iff_mem l c).mpr h

/-- Absence gives a negative single-character containment test. -/
theorem hasChar_of_not_mem (c : Char) (l : List Char) (h : c ∉ l) :
    hasChar c l = false := by
  cases hl : hasChar c l
  · rfl
  · exact absurd ((contains_iff_mem l c).mp hl) h

/-- Splitting a separator-free list yields the singleton. -/
theorem splitChar_sep_free (sep : Char) (l : List Char)
    (h : ∀ c ∈ l, (c == sep) = false) : splitChar sep l = [l] := by
  induction l with
  | nil => rfl
  | cons c cs ih =>
    have hc := h c (List.mem_cons_self _ _)
    have ht := ih (fun z hz => h z (List.mem_cons_of_mem _ hz))
    simp [splitChar, hc, ht]

/-- Splitting at the first separator after a separator-free block. -/
theorem splitChar_append_sep (sep : Char) (xs ys : List Char)
    (h : ∀ c ∈ xs, (c == sep) = false) :
    splitChar sep (xs ++ sep :: ys) = xs :: splitChar sep ys := by
  induction xs with
  | nil => simp [splitChar]
  | cons c cs ih =>
    have hc := h c (List.mem_cons_self _ _)
    have ht := ih (fun z hz => h z (List.mem_cons_of_mem _ hz))
    simp [splitChar, hc, ht]

/-- Single-split analogue of `splitChar_append_sep`. -/
theorem splitOnce_append_sep (sep : Char) (xs ys : List Char)
    (h : ∀ c ∈ xs, (c == sep) = false) :
    splitOnce sep (xs ++ sep :: ys) = [xs, ys] := by
  induction xs with
  | nil => simp [splitOnce]
  | cons c cs ih =>
    have hc := h c (List.mem_cons_self _ _)
    have ht := ih (fun z hz => h z (List.mem_cons_of_mem _ hz))
    simp [splitOnce, hc, ht]

/-- Take-while stops exactly at the first failing element. -/
theorem takeWhile_append_stop {α : Type} (p : α → Bool) (xs : List α) (y : α)
    (ys : List α) (hxs : ∀ x ∈ xs, p x = true) (hy : p y = false) :
    (xs ++ y :: ys).takeWhile p = xs := by
  induction xs with
  | nil => simp [List.takeWhile_cons, hy]
  | cons x xs ih =>
    have hx := hxs x (List.mem_cons_self _ _)
    simp [List.takeWhile_cons, hx,
      ih (fun z hz => hxs z (List.mem_cons_of_mem _ hz))]

/-- The pathlib suffix of `a ++ "." ++ e` for a dot-free non-empty
extension and a non-empty front part. -/
theorem pySuffixChars_concat (a e : List Char) (ha : a ≠ []) (he : e ≠ [])
    (hde : ∀ c ∈ e, (c != '.') = true) :
    pySuffixChars (a ++ '.' :: e) = '.' :: e := by
  have ha' : 0 < a.length := List.length_pos.mpr ha
  have he' : 0 < e.length := List.length_pos.mpr he
  unfold pySuffixChars
  have h1 : (a ++ '.' :: e).reverse = e.reverse ++ '.' :: a.reverse := by
    rw [List.reverse_append, List.reverse_cons]
    simp
  rw [h1, takeWhile_append_stop _ _ _ _
    (fun c hc => hde c (List.mem_reverse.mp hc)) (by decide)]
  simp only [List.length_reverse, List.length_append, List.length_cons]
  rw [if_neg (by omega), if_neg (by omega), if_neg (by omega)]
  simp

/-- Stem and suffix of a filename `a ++ "." ++ e` with clean parts. -/
theorem pyStem_pySuffix_concat (a e : String) (ha : a.data ≠ [])
    (he : e.data ≠ []) (hde : ∀ c ∈ e.data, (c != '.') = true) :
    pyStem (a ++ "." ++ e) = a ∧ pySuffix (a ++ "." ++ e) = "." ++ e := by
  have hdata : (a ++ "." ++ e).data = a.data ++ '.' :: e.data := by
    simp [String.data_append]
  have hsfx := pySuffixChars_concat a.data e.data ha he hde
  constructor
  · unfold pyStem
    rw [hdata, hsfx]
    have hlen : (a.data ++ '.' :: e.data).length - ('.' :: e.data).length =
        a.data.length := by
      simp
    rw [if_neg (by simp), hlen]
    exact strExt (List.take_left a.data ('.' :: e.data))
  · unfold pySuffix
    rw [hdata, hsfx]
    exact strExt (by simp [String.data_append])

/-- Last component of a path ending in four known components. -/
theorem pyPathName_append4 (xs : List String) (a b c d : String) :
    PyPath.name ⟨xs ++ [a, b, c, d]⟩ = d := by
  show (xs ++ [a, b, c, d]).getLastD "" = d
  have h : xs ++ [a, b, c, d] = (xs ++ [a, b, c]) ++ [d] := by simp
  rw [h, List.getLastD_concat]

/-- Parent components of a path ending in four known components. -/
theorem pyPathParent_append4 (xs : List String) (a b c d : String) :
    PyPath.parentParts ⟨xs ++ [a, b, c, d]⟩ = xs ++ [a, b, c] := by
  show (xs ++ [a, b, c, d]).dropLast = xs ++ [a, b, c]
  have h : xs ++ [a, b, c, d] = (xs ++ [a, b, c]) ++ [d] := by simp
  rw [h, List.dropLast_concat]

/-- The trailing slice of an append only depends on the right part when
it is long enough. -/
theorem lastN_append {α : Type} (xs ys : List α) (k : Nat) (hk : k ≤ ys.length) :
    lastN k (xs ++ ys) = lastN k ys := by
  unfold lastN
  rw [List.length_append]
  have h : xs.length + ys.length - k = xs.length + (ys.length - k) := by omega
  rw [h, List.drop_append]

/-- Python split of `pre ++ "-" ++ v` at dashes when both sides are
dash-free. -/
theorem pySplitS_dash (pre v : String)
    (hpre : ∀ c ∈ pre.data, (c == '-') = false)
    (hv : ∀ c ∈ v.data, (c == '-') = false) :
    pySplitS '-' (pre ++ "-" ++ v) = [pre, v] := by
  unfold pySplitS
  have hdata : (pre ++ "-" ++ v).data = pre.data ++ '-' :: v.data := by
    simp [String.data_append]
  rw [hdata, splitChar_append_sep '-' _ _ hpre, splitChar_sep_free '-' _ hv]
  simp

/-- Python single-split of `pre ++ "-" ++ v` when the prefix is
dash-free. -/
theorem pySplitOnceS_dash (pre v : String)
    (hpre : ∀ c ∈ pre.data, (c == '-') = false) :
    pySplitOnceS '-' (pre ++ "-" ++ v) = [pre, v] := by
  unfold pySplitOnceS
  have hdata : (pre ++ "-" ++ v).data = pre.data ++ '-' :: v.data := by
    simp [String.data_append]
  rw [hdata, splitOnce_append_sep '-' _ _ hpre]
  simp

/-- Entity validation and normalization act as the identity on clean
labels. -/
theorem checkEntity_clean (attr pfx : String) (v : String)
    (hpfx : '-' ∈ (pfx ++ "-").data) (hv : cleanLabel v = true) :
    checkEntity attr pfx (some v) = Except.ok (some v) := by
  obtain ⟨hne, hall⟩ := cleanLabel_spec v hv
  have hnd : '-' ∉ v.data := by
    intro hmem
    have := (hall '-' hmem).2.1
    simp at this
  have hnodash : hasChar '-' v.data = false := hasChar_of_not_mem _ _ hnd
  have hnostrip : pyStrip v = v := pyStrip_clean v (fun c hc => (hall c hc).1)
  have hpref : pyStartsWith v (pfx ++ "-") = false :=
    leadsWith_eq_false '-' hpfx hnd
  simp only [checkEntity, hnodash, Bool.false_and, Bool.false_eq_true, if_false]
  unfold normalizeEntity
  rw [hnostrip]
  simp [hpref]

/-- Stem-override step on a clean `key-value` component. -/
theorem applyStemPart_keyed (r : BidsPathRec) (pre v : String)
    (hpre : ∀ c ∈ pre.data, (c == '-') = false) :
    applyStemPart r (pre ++ "-" ++ v) =
      (if pre = "sub" then { r with subject := some v }
       else if pre = "ses" then { r with session := some v }
       else if pre = "task" then { r with task := some v }
       else if pre = "acq" then { r with acquisition := some v }
       else if pre = "run" then { r with run := some v }
       else if pre = "desc" then { r with description := some v }
       else r) := by
  have hdata : (pre ++ "-" ++ v).data = pre.data ++ '-' :: v.data := by
    simp [String.data_append]
  have hdash : hasChar '-' (pre ++ "-" ++ v).data = true := by
    rw [hdata]
    exact hasChar_of_mem _ _ (List.mem_append_right _ (List.mem_cons_self _ _))
  unfold applyStemPart
  rw [hdash, pySplitOnceS_dash pre v hpre]
  simp

/-- Stem-override step on a dash-free component is the identity. -/
theorem applyStemPart_no_dash (r : BidsPathRec) (p : String)
    (h : hasChar '-' p.data = false) : applyStemPart r p = r := by
  unfold applyStemPart
  rw [h]
  simp

/-- Entity validation of an absent value. -/
theorem checkEntity_none (attr pfx : String) :
    checkEntity attr pfx none = Except.ok none :=
  rfl

/-- C5 (amended): for a path `root/sub-X/ses-Y/dt/<filename>` built from
clean labels, parsing always takes the datatype from the immediate parent
directory, and takes subject/session from the filename's `sub-`/`ses-`
entities when the stem carries them (second conjunct: subject = X and
session = Y, as the claim states for canonical BIDS filenames); when the
stem carries no entities (first conjunct) the directory-derived fallbacks
are swapped: subject gets Y, the `ses-` directory label, and session gets
X, the `sub-` directory label. -/
theorem c5_parse_directory_entities (root : List String) (X Y dt sfx ext : String)
    (hX : cleanLabel X = true) (hY : cleanLabel Y = true)
    (hsfx : cleanLabel sfx = true) (hext : cleanLabel ext = true) :
    fromFilename ⟨root ++ ["sub-" ++ X, "ses-" ++ Y, dt, sfx ++ "." ++ ext]⟩ =
      Except.ok
        { subject := some Y, session := some X, datatype := some dt,
          suffix := some sfx, extension := some ("." ++ ext) } ∧
    fromFilename ⟨root ++ ["sub-" ++ X, "ses-" ++ Y, dt,
        "sub-" ++ X ++ "_ses-" ++ Y ++ "_" ++ sfx ++ "." ++ ext]⟩ =
      Except.ok
        { subject := some X, session := some Y, datatype := some dt,
          suffix := some sfx, extension := some ("." ++ ext) } := by
  obtain ⟨hXne, hXc⟩ := cleanLabel_spec X hX
  obtain ⟨hYne, hYc⟩ := cleanLabel_spec Y hY
  obtain ⟨hsne, hsc⟩ := cleanLabel_spec sfx hsfx
  obtain ⟨hene, hec⟩ := cleanLabel_spec ext hext
  have hsubeq : ("sub-" ++ X : String) = "sub" ++ "-" ++ X := rfl
  have hseseq : ("ses-" ++ Y : String) = "ses" ++ "-" ++ Y := rfl
  have hsubsplit : (pySplitS '-' ("sub-" ++ X)).get? 1 = some X := by
    rw [hsubeq, pySplitS_dash "sub" X (by decide) (fun c hc => (hXc c hc).2.1)]
    rfl
  have hsessplit : (pySplitS '-' ("ses-" ++ Y)).get? 1 = some Y := by
    rw [hseseq, pySplitS_dash "ses" Y (by decide) (fun c hc => (hYc c hc).2.1)]
    rfl
  have hcsub : checkEntity "subject" "sub" (some X) = Except.ok (some X) :=
    checkEntity_clean "subject" "sub" X (by decide) hX
  have hcses : checkEntity "session" "ses" (some Y) = Except.ok (some Y) :=
    checkEntity_clean "session" "ses" Y (by decide) hY
  have hcsub2 : checkEntity "subject" "sub" (some Y) = Except.ok (some Y) :=
    checkEntity_clean "subject" "sub" Y (by decide) hY
  have hcses2 : checkEntity "session" "ses" (some X) = Except.ok (some X) :=
    checkEntity_clean "session" "ses" X (by decide) hX
  have hnx : normalizeExtension (some ("." ++ ext)) = some ("." ++ ext) := by
    have hpw : pyStartsWith ("." ++ ext) "." = true := by
      unfold pyStartsWith
      rw [show ("." ++ ext).data = '.' :: ext.data by simp [String.data_append]]
      simp [leadsWith]
    unfold normalizeExtension
    simp [hpw]
  constructor
  · -- stem without entities: directory-derived subject/session are swapped
    have hname : PyPath.name ⟨root ++ ["sub-" ++ X, "ses-" ++ Y, dt, sfx ++ "." ++ ext]⟩ =
        sfx ++ "." ++ ext := pyPathName_append4 root _ _ _ _
    obtain ⟨hstem, hsuf⟩ := pyStem_pySuffix_concat sfx ext hsne hene
      (fun c hc => (hec c hc).2.2.2)
    have hstemsplit : pySplitS '_' sfx = [sfx] := by
      unfold pySplitS
      rw [splitChar_sep_free '_' _ (fun c hc => (hsc c hc).2.2.1)]
      rfl
    have hcheck : checkFilename ⟨root ++ ["sub-" ++ X, "ses-" ++ Y, dt, sfx ++ "." ++ ext]⟩ =
        Except.ok () := by
      unfold checkFilename
      rw [hname, hstem, hstemsplit]
      rfl
    have hl2 : lastN 2 (root ++ ["sub-" ++ X, "ses-" ++ Y, dt, sfx ++ "." ++ ext]) =
        [dt, sfx ++ "." ++ ext] := by
      rw [lastN_append root _ 2 (by simp)]
      rfl
    have hl3 : lastN 3 (root ++ ["sub-" ++ X, "ses-" ++ Y, dt, sfx ++ "." ++ ext]) =
        ["ses-" ++ Y, dt, sfx ++ "." ++ ext] := by
      rw [lastN_append root _ 3 (by simp)]
      rfl
    have hl4 : lastN 4 (root ++ ["sub-" ++ X, "ses-" ++ Y, dt, sfx ++ "." ++ ext]) =
        ["sub-" ++ X, "ses-" ++ Y, dt, sfx ++ "." ++ ext] := by
      rw [lastN_append root _ 4 (by simp)]
      rfl
    have hlen : (root ++ ["sub-" ++ X, "ses-" ++ Y, dt, sfx ++ "." ++ ext]).length =
        root.length + 4 := by
      simp
    have hfold :
        applyStemPart
          ({ datatype := some dt, subject := some Y, session := some X } :
            BidsPathRec)
          sfx =
        ({ datatype := some dt, subject := some Y, session := some X } :
          BidsPathRec) :=
      applyStemPart_no_dash _ sfx
        (hasChar_of_not_mem _ _ (fun hm => by simpa using (hsc _ hm).2.1))
    have hlast1 : ([sfx] : List String).getLastD "" = sfx := rfl
    unfold fromFilename mkBidsPath
    rw [hcheck, except_ok_bind]
    simp only [hname, hlen, hl2, hl3, hl4, hstem, hsuf, hstemsplit,
      show root.length + 4 > 2 by omega, show root.length + 4 > 3 by omega,
      if_true, List.get?_cons_zero, List.getD_cons_zero, Option.getD_some,
      hsubsplit, hsessplit, List.foldl, hlast1, except_ok_bind, hfold,
      checkEntity_none, hcsub2, hcses2, hnx]
  · -- canonical stem: filename entities override the directories
    have hstem2eq : ("sub-" ++ X ++ "_ses-" ++ Y ++ "_" ++ sfx ++ "." ++ ext : String) =
        ("sub-" ++ X ++ "_ses-" ++ Y ++ "_" ++ sfx) ++ "." ++ ext := rfl
    have hname : PyPath.name ⟨root ++ ["sub-" ++ X, "ses-" ++ Y, dt,
        "sub-" ++ X ++ "_ses-" ++ Y ++ "_" ++ sfx ++ "." ++ ext]⟩ =
        "sub-" ++ X ++ "_ses-" ++ Y ++ "_" ++ sfx ++ "." ++ ext :=
      pyPathName_append4 root _ _ _ _
    have hstem2ne : ("sub-" ++ X ++ "_ses-" ++ Y ++ "_" ++ sfx : String).data ≠ [] := by
      simp [String.data_append]
    obtain ⟨hstem, hsuf⟩ := pyStem_pySuffix_concat
      ("sub-" ++ X ++ "_ses-" ++ Y ++ "_" ++ sfx) ext hstem2ne hene
      (fun c hc => (hec c hc).2.2.2)
    have hshape : ("sub-" ++ X ++ "_ses-" ++ Y ++ "_" ++ sfx : String).data =
        (['s', 'u', 'b', '-'] ++ X.data) ++ '_' ::
          ((['s', 'e', 's', '-'] ++ Y.data) ++ '_' :: sfx.data) := by
      simp [String.data_append]
    have hsplit2 : pySplitS '_' ("sub-" ++ X ++ "_ses-" ++ Y ++ "_" ++ sfx) =
        ["sub-" ++ X, "ses-" ++ Y, sfx] := by
      unfold pySplitS
      rw [hshape]
      rw [splitChar_append_sep '_' _ _ (by
        intro c hc
        rcases List.mem_append.mp hc with hc | hc
        · fin_cases hc <;> rfl
        · exact (hXc c hc).2.2.1)]
      rw [splitChar_append_sep '_' _ _ (by
        intro c hc
        rcases List.mem_append.mp hc with hc | hc
        · fin_cases hc <;> rfl
        · exact (hYc c hc).2.2.1)]
      rw [splitChar_sep_free '_' _ (fun c hc => (hsc c hc).2.2.1)]
      rfl
    have hdashsub : hasChar '-' ('s' :: 'u' :: 'b' :: '-' :: X.data) = true :=
      hasChar_of_mem _ _ (by simp)
    have hdashses : hasChar '-' ('s' :: 'e' :: 's' :: '-' :: Y.data) = true :=
      hasChar_of_mem _ _ (by simp)
    have hcheck : checkFilename ⟨root ++ ["sub-" ++ X, "ses-" ++ Y, dt,
        "sub-" ++ X ++ "_ses-" ++ Y ++ "_" ++ sfx ++ "." ++ ext]⟩ =
        Except.ok () := by
      unfold checkFilename
      rw [hname, hstem2eq, hstem, hsplit2]
      simp [hdashsub, hdashses]
    have hl2 : lastN 2 (root ++ ["sub-" ++ X, "ses-" ++ Y, dt,
        "sub-" ++ X ++ "_ses-" ++ Y ++ "_" ++ sfx ++ "." ++ ext]) =
        [dt, "sub-" ++ X ++ "_ses-" ++ Y ++ "_" ++ sfx ++ "." ++ ext] := by
      rw [lastN_append root _ 2 (by simp)]
      rfl
    have hl3 : lastN 3 (root ++ ["sub-" ++ X, "ses-" ++ Y, dt,
        "sub-" ++ X ++ "_ses-" ++ Y ++ "_" ++ sfx ++ "." ++ ext]) =
        ["ses-" ++ Y, dt, "sub-" ++ X ++ "_ses-" ++ Y ++ "_" ++ sfx ++ "." ++ ext] := by
      rw [lastN_append root _ 3 (by simp)]
      rfl
    have hl4 : lastN 4 (root ++ ["sub-" ++ X, "ses-" ++ Y, dt,
        "sub-" ++ X ++ "_ses-" ++ Y ++ "_" ++ sfx ++ "." ++ ext]) =
        ["sub-" ++ X, "ses-" ++ Y, dt,
          "sub-" ++ X ++ "_ses-" ++ Y ++ "_" ++ sfx ++ "." ++ ext] := by
      rw [lastN_append root _ 4 (by simp)]
      rfl
    have hlen : (root ++ ["sub-" ++ X, "ses-" ++ Y, dt,
        "sub-" ++ X ++ "_ses-" ++ Y ++ "_" ++ sfx ++ "." ++ ext]).length =
        root.length + 4 := by
      simp
    have happlysub : ∀ r : BidsPathRec, applyStemPart r ("sub-" ++ X) =
        { r with subject := some X } := by
      intro r
      rw [hsubeq, applyStemPart_keyed r "sub" X (by decide)]
      rfl
    have happlyses : ∀ r : BidsPathRec, applyStemPart r ("ses-" ++ Y) =
        { r with session := some Y } := by
      intro r
      rw [hseseq, applyStemPart_keyed r "ses" Y (by decide)]
      rfl
    have happlysfx : ∀ r : BidsPathRec, applyStemPart r sfx = r := by
      intro r
      exact applyStemPart_no_dash r sfx
        (hasChar_of_not_mem _ _ (fun hm => by simpa using (hsc _ hm).2.1))
    have hlast2 : (["sub-" ++ X, "ses-" ++ Y, sfx] : List String).getLastD "" = sfx := rfl
    unfold fromFilename mkBidsPath
    rw [hcheck, except_ok_bind]
    simp only [hname, hlen, hl2, hl3, hl4, hstem2eq, hstem, hsuf, hsplit2,
      show root.length + 4 > 2 by omega, show root.length + 4 > 3 by omega,
      if_true, List.get?_cons_zero, List.getD_cons_zero, Option.getD_some,
      hsubsplit, hsessplit, List.foldl, hlast2, except_ok_bind,
      happlysub, happlyses, happlysfx, checkEntity_none, hcsub, hcses, hnx]

/-- Witness for C5 (amended): concrete labels instantiating both the
fallback (swapped) and the canonical (overridden) parse. -/
theorem c5_witness :
    cleanLabel "01" = true ∧
    fromFilename ⟨["data", "sub-" ++ "01", "ses-" ++ "02", "eeg",
        "eeg" ++ "." ++ "vhdr"]⟩ =
      Except.ok
        { subject := some "02", session := some "01",
          datatype := some "eeg", suffix := some "eeg",
          extension := some ("." ++ "vhdr") } := by
  refine ⟨by decide, ?_⟩
  exact (c5_parse_directory_entities ["data"] "01" "02" "eeg" "eeg" "vhdr"
    (by decide) (by decide) (by decide) (by decide)).1

/-- Counterexample for C5 as stated: on
`sub-01/ses-02/eeg/eeg.vhdr` (a suffix-only stem) the parsed subject is
"02", the label of the `ses-` directory, not "01", the label of the
`sub-` directory the claim requires. -/
theorem c5_counterexample :
    fromFilename c5path =
      Except.ok
        { subject := some "02", session := some "01",
          datatype := some "eeg", suffix := some "eeg",
          extension := some ".vhdr" } ∧
    (fromFilename c5path).toOption.map (fun r => r.subject) ≠
      some (some "01") :=
  ⟨by decide, by decide⟩

/-- Every error outcome of the per-file body is the recorded form of a
raised exception. -/
theorem processFile_error_shape (c : Candidate) (er : ErrRow)
    (h : processFile c = Except.error er) : ∃ e : PyErr, er = mkErrRow c e := by
  unfold processFile at h
  cases hv : validateBidsFile c.path with
  | error e =>
    rw [hv] at h
    injection h with h1
    exact ⟨e, h1.symm⟩
  | ok b =>
    rw [hv] at h
    cases hf : fromFilename c.path with
    | error e =>
      rw [hf] at h
      injection h with h1
      exact ⟨e, h1.symm⟩
    | ok r =>
      rw [hf] at h
      cases h

/-- Build-loop characterization: the file and error tables count exactly
the non-skipped candidates whose processing succeeded and failed, and
every error row is the record of one candidate's raised exception. -/
theorem buildTables_spec (cs : List Candidate) :
    (buildTables cs).1.length =
      (cs.filter (fun c => !skipAsTest c && (processFile c).isOk)).length ∧
    (buildTables cs).2.length =
      (cs.filter (fun c => !skipAsTest c && !(processFile c).isOk)).length ∧
    (∀ er ∈ (buildTables cs).2, ∃ c ∈ cs, ∃ e : PyErr,
      er = mkErrRow c e ∧ processFile c = Except.error er) := by
  induction cs with
  | nil => exact ⟨rfl, rfl, by simp [buildTables]⟩
  | cons c t ih =>
    obtain ⟨ih1, ih2, ih3⟩ := ih
    by_cases hskip : skipAsTest c
    · refine ⟨?_, ?_, ?_⟩
      · simp [buildTables, hskip, List.filter_cons, ih1]
      · simp [buildTables, hskip, List.filter_cons, ih2]
      · intro er her
        simp only [buildTables, hskip, if_pos] at her
        obtain ⟨c2, hc2, e, he⟩ := ih3 er her
        exact ⟨c2, List.mem_cons_of_mem _ hc2, e, he⟩
    · cases hp : processFile c with
      | ok r =>
        have hok : (processFile c).isOk = true := by rw [hp]; rfl
        refine ⟨?_, ?_, ?_⟩
        · simp [buildTables, hskip, hp, List.filter_cons, hok, Except.isOk,
            Except.toBool, ih1]
        · simp [buildTables, hskip, hp, List.filter_cons, hok, Except.isOk,
            Except.toBool, ih2]
        · intro er her
          simp only [buildTables, hskip, if_neg, Bool.not_eq_true, hp] at her
          obtain ⟨c2, hc2, e, he⟩ := ih3 er her
          exact ⟨c2, List.mem_cons_of_mem _ hc2, e, he⟩
      | error er0 =>
        have hok : (processFile c).isOk = false := by rw [hp]; rfl
        refine ⟨?_, ?_, ?_⟩
        · simp [buildTables, hskip, hp, List.filter_cons, hok, Except.isOk,
            Except.toBool, ih1]
        · simp [buildTables, hskip, hp, List.filter_cons, hok, Except.isOk,
            Except.toBool, ih2]
        · intro er her
          simp only [buildTables, hskip, if_neg, Bool.not_eq_true, hp,
            List.mem_cons] at her
          rcases her with rfl | her
          · obtain ⟨e, he⟩ := processFile_error_shape c er hp
            exact ⟨c, List.mem_cons_self c t, e, he, hp⟩
          · obtain ⟨c2, hc2, e, he⟩ := ih3 er her
            exact ⟨c2, List.mem_cons_of_mem _ hc2, e, he⟩

/-- C7 (amended): for a candidate sequence none of whose filenames
contain the substring "test" (case-insensitively), with N candidates
that pass validation and parsing and one that raises, the build completes
with exactly N file rows and one error row, and every error row records
the failing file and its raised exception (type and message). -/
theorem c7_single_bad_file_isolated (cs : List Candidate) (N : Nat)
    (hskip : ∀ c ∈ cs, skipAsTest c = false)
    (hN : (cs.filter (fun c => (processFile c).isOk)).length = N)
    (h1 : (cs.filter (fun c => !(processFile c).isOk)).length = 1) :
    (buildTables cs).1.length = N ∧
    (buildTables cs).2.length = 1 ∧
    (∀ er ∈ (buildTables cs).2, ∃ c ∈ cs, ∃ e : PyErr,
      er = mkErrRow c e ∧ processFile c = Except.error er) := by
  obtain ⟨s1, s2, s3⟩ := buildTables_spec cs
  have hf1 : cs.filter (fun c => !skipAsTest c && (processFile c).isOk) =
      cs.filter (fun c => (processFile c).isOk) :=
    List.filter_congr (fun c hc => by simp [hskip c hc])
  have hf2 : cs.filter (fun c => !skipAsTest c && !(processFile c).isOk) =
      cs.filter (fun c => !(processFile c).isOk) :=
    List.filter_congr (fun c hc => by simp [hskip c hc])
  refine ⟨?_, ?_, s3⟩
  · rw [s1, hf1, hN]
  · rw [s2, hf2, h1]

/-- Witness for C7 (amended): two clean candidates and one failing one
yield two file rows and one error row. -/
theorem c7_witness :
    (∀ c ∈ [c7good1, c7good2, c7bad], skipAsTest c = false) ∧
    (buildTables [c7good1, c7good2, c7bad]).1.length = 2 ∧
    (buildTables [c7good1, c7good2, c7bad]).2.length = 1 := by
  refine ⟨by decide, ?_, ?_⟩
  · exact (c7_single_bad_file_isolated [c7good1, c7good2, c7bad] 2
      (by decide) (by decide) (by decide)).1
  · exact (c7_single_bad_file_isolated [c7good1, c7good2, c7bad] 2
      (by decide) (by decide) (by decide)).2.1

/-- Counterexample for C7 as stated: among `[c7test, c7ab, c7bad]` two
files pass validation and one fails it, so the claim predicts two file
rows and one error row; the build instead produces zero file rows (the
test-named candidate is skipped outright) and two error rows (the file
that passed validation still raises while parsing). -/
theorem c7_counterexample :
    validateBidsFile c7test.path = Except.ok true ∧
    validateBidsFile c7ab.path = Except.ok true ∧
    (validateBidsFile c7bad.path).isOk = false ∧
    (buildTables [c7test, c7ab, c7bad]).1.length = 0 ∧
    (buildTables [c7test, c7ab, c7bad]).2.length = 2 ∧
    ¬ ((buildTables [c7test, c7ab, c7bad]).1.length = 2 ∧
        (buildTables [c7test, c7ab, c7bad]).2.length = 1) :=
  ⟨by decide, by decide, by decide, by decide, by decide, by decide⟩

/-- Witness for C10: select(run=1) — a non-string criterion — computes
the same mask as an unconstrained select, matching every row. -/
theorem c10_witness :
    "run" ∈ selectionKeys ∧
    createMask c10db [("run", CritValue.other)] = createMask c10db [] ∧
    createMask c10db [("run", CritValue.other)] = Except.ok [true, true, true] := by
  refine ⟨by decide, ?_, by decide⟩
  have h := (c10_nonstring_or_blank_criteria_ignored c10db [] [] "run"
    CritValue.other (by decide) (Or.inl rfl)).1
  simpa using h

end BidsExplorer
